import Mathlib

/-!
Verification of the twitch.js client (src/src/client/Client.js) against its
natural-language specification.

The repository ships one source file, `Client.js`.  Its collaborators
(`utils.collection`, `structures/channels`, `constants.defaultOptions`,
`Util.mergeDefault`, the logger and the SLEEPT session manager) are not part
of the sources; where a claim depends on them they are modelled from the
spec, and each such definition says so in its doc comment.

Conventions of the shallow embedding:
* JavaScript `Map`-like collections are association lists keyed by `String`
  (insertion ordered: `set` of an existing key updates in place, of a new
  key appends; `get` is first-match lookup; iteration follows list order).
* JavaScript `undefined` / `null` results are `Option.none`.
* A JavaScript `TypeError` thrown while a function runs is `Except.error`
  carrying the message; normal completion is `Except.ok`.
* Timestamps are integer milliseconds, lifetimes integer seconds, as the
  claims only compare and scale them.
-/

/-- Association-list collection modelled from the spec: a generic ordered
key-value collection utility (the repository's `utils.collection`, not in
the sources). -/
structure Collection (β : Type) where
  entries : List (String × β)
deriving DecidableEq, Repr

/-- First-match lookup by key, `none` when the key is absent (a JS `Map.get`
returning `undefined`). -/
def lookupEntries {β : Type} (l : List (String × β)) (k : String) : Option β :=
  match l with
  | [] => none
  | (k2, v) :: rest => if k2 = k then some v else lookupEntries rest k

/-- Insertion-ordered update: an existing key keeps its position and gets the
new value, a new key is appended. -/
def setEntries {β : Type} (l : List (String × β)) (k : String) (v : β) :
    List (String × β) :=
  match l with
  | [] => [(k, v)]
  | (k2, v2) :: rest =>
    if k2 = k then (k, v) :: rest else (k2, v2) :: setEntries rest k v

/-- First value satisfying the predicate, in iteration (insertion) order. -/
def findValue {β : Type} (l : List (String × β)) (p : β → Bool) : Option β :=
  match l with
  | [] => none
  | (_, v) :: rest => if p v then some v else findValue rest p

/-- Keyed lookup of the collection (its default `get`). -/
def Collection.get {β : Type} (c : Collection β) (k : String) : Option β :=
  lookupEntries c.entries k

/-- Keyed insertion/update of the collection. -/
def Collection.set {β : Type} (c : Collection β) (k : String) (v : β) :
    Collection β :=
  ⟨setEntries c.entries k v⟩

/-- Scan of the collection for the first value satisfying a predicate
(the `find` used by the client's normalizing lookup override). -/
def Collection.find {β : Type} (c : Collection β) (p : β → Bool) : Option β :=
  findValue c.entries p

/-- Modelled from the spec: Message Cache `sweep(predicate)` is a single pass
over all entries that removes and counts those matching the predicate and
returns the count (the repository's `utils.collection.sweep`, not in the
sources). -/
def Collection.sweep {β : Type} (c : Collection β) (p : β → Bool) :
    Nat × Collection β :=
  ((c.entries.filter (fun e => p e.2)).length,
   ⟨c.entries.filter (fun e => !p e.2)⟩)

/-- Chat user as the claims need it: the identifier is the lowercase login
name (modelled from the spec's User entity; the structure file is not in the
sources). -/
structure User where
  id : String
deriving DecidableEq, Repr

/-- Cached chat message: creation timestamp and optional edit timestamp in
milliseconds (modelled from the spec's Message entity; the structure file is
not in the sources). -/
structure Message where
  id : String
  content : String
  createdTimestamp : Int
  editedTimestamp : Option Int
deriving DecidableEq, Repr

/-- Chat channel (the spec's Room): normalized name, user mapping, and an
optional message cache — `Client.sweepMessages` guards on the cache being
absent (`if (!channel.messages) continue`). -/
structure Channel where
  name : String
  users : Collection User
  messages : Option (Collection Message)
deriving DecidableEq, Repr

/-- Channel as constructed in the client constructor,
`new channel(this, \x7b channel: channelName \x7d)`: it carries the
normalized name and starts with empty user and message stores (modelled from
the spec's Room entity; the structure file is not in the sources). -/
def mkChannel (name : String) : Channel :=
  ⟨name, ⟨[]⟩, some ⟨[]⟩⟩

/-- Character-level form of `channelName.slice(0, 1) !== '#'` name
normalization: prepend the sigil unless the first character is `#`. -/
def normalizeChars (l : List Char) : List Char :=
  if l.head? = some '#' then l else '#' :: l

/-- Channel-name normalization performed by the constructor loop and by the
overriding `channels.get` (Client.js lines 96-107). -/
def normalizeChannelName (s : String) : String :=
  ⟨normalizeChars s.data⟩

/-- Fold of the constructor's `options.channels.forEach` loop over an
accumulator store: each name is normalized and stored under the normalized
key. -/
def initFold (acc : Collection Channel) (ls : List String) : Collection Channel :=
  match ls with
  | [] => acc
  | n :: rest =>
    initFold (acc.set (normalizeChannelName n) (mkChannel (normalizeChannelName n))) rest

/-- Channel store built by the constructor from the initial channel list
(Client.js lines 92-107). -/
def initChannels (ls : List String) : Collection Channel :=
  initFold ⟨[]⟩ ls

/-- The client's `channels.get` after construction.  The normalizing
override is assigned inside the per-channel `forEach` body, so it is
installed exactly when the initial list is nonempty; otherwise the
collection's default keyed `get` remains in place (Client.js lines 96-107). -/
def clientChannelsGet (initList : List String) (store : Collection Channel)
    (q : String) : Option Channel :=
  if initList.isEmpty then store.get q
  else store.find (fun ch => ch.name == normalizeChannelName q)

/-- JavaScript values as far as option validation observes them: numbers
(including `NaN`), booleans, strings, arrays (the client only iterates the
`channels` array, whose elements are names), and `null`.  Absent keys are
filled in by `Util.mergeDefault` before validation, so every recognized
option has a value here. -/
inductive JSVal where
  | num (n : Int)
  | nan
  | bool (b : Bool)
  | str (s : String)
  | arr (elems : List String)
  | null
deriving DecidableEq, Repr

/-- Passes the source's numeric check: `typeof x === 'number' && !isNaN(x)`
(the validation throws on its negation). -/
def isValidNumber : JSVal → Bool
  | JSVal.num _ => true
  | _ => false

/-- Passes `typeof x === 'boolean'`. -/
def isBoolVal : JSVal → Bool
  | JSVal.bool _ => true
  | _ => false

/-- Passes `x instanceof Array`. -/
def isArrayVal : JSVal → Bool
  | JSVal.arr _ => true
  | _ => false

/-- JavaScript truthiness of the modelled values: `0`, `NaN`, `false`, the
empty string and `null` are falsy. -/
def truthy : JSVal → Bool
  | JSVal.num n => n != 0
  | JSVal.nan => false
  | JSVal.bool b => b
  | JSVal.str s => !s.isEmpty
  | JSVal.arr _ => true
  | JSVal.null => false

/-- The `.length` read performed by the `connectedChannels` check: arrays and
strings have one, every other value yields `undefined`, which compares as not
greater than zero. -/
def jsLength : JSVal → Nat
  | JSVal.arr l => l.length
  | JSVal.str s => s.length
  | _ => 0

/-- Client options after `Util.mergeDefault(constants.defaultOptions,
options)`.  The recognized keys are modelled from the spec and the
validation code: they are exactly the options `_validateOptions` inspects
(`constants.defaultOptions` is not in the sources).  `extraKeys` lists, in
iteration order, the keys of the supplied object that are not recognized
defaults. -/
structure Options where
  messageCacheMaxSize : JSVal
  messageCacheLifetime : JSVal
  messageSweepInterval : JSVal
  fetchAllChatters : JSVal
  disabledEvents : JSVal
  retryLimit : JSVal
  autoLogEnd : JSVal
  channels : JSVal
  debug : JSVal
  connectedChannels : JSVal
  extraKeys : List String
deriving DecidableEq, Repr

/-- The checks of `Client._validateOptions` (Client.js lines 290-327) in
source order, with the source's messages; `Except.error` models the thrown
`TypeError`. -/
def validateOptions (o : Options) : Except String Unit :=
  if !isValidNumber o.messageCacheMaxSize then
    Except.error "The messageMaxSize option must be a number."
  else if !isValidNumber o.messageCacheLifetime then
    Except.error "The messageCacheLifetime option must be a number."
  else if !isValidNumber o.messageSweepInterval then
    Except.error "The messageSweepInterval option must be a number."
  else if !isBoolVal o.fetchAllChatters then
    Except.error "The fetchAllChatters option must be a boolean."
  else if truthy o.disabledEvents && !isArrayVal o.disabledEvents then
    Except.error "The disabledEvents option must be an Array."
  else if !isValidNumber o.retryLimit then
    Except.error "The retryLimit  options must be a number."
  else if truthy o.autoLogEnd && !isBoolVal o.autoLogEnd then
    Except.error "The autoLogEnd options must be a boolean."
  else if truthy o.channels && !isArrayVal o.channels then
    Except.error "The channels options must be a array."
  else if truthy o.debug && !isBoolVal o.debug then
    Except.error "The debug options must be a boolean."
  else if truthy o.connectedChannels && !isArrayVal o.channels
      && jsLength o.connectedChannels > 0 then
    Except.error "The connectedChannels options must be a array and must be empty."
  else
    match o.extraKeys with
    | [] => Except.ok ()
    | k :: _ =>
      Except.error ("The option: " ++ k ++ " is not a valid option.")

/-- Token initialization at construction (Client.js lines 37-52).  The
`token` property is defined without a value, so `!this.token` is always
true at this point; the token becomes the `CLIENT_TOKEN` environment value
when that key is present in `process.env` and `null` otherwise.  The
environment is an association list of variables. -/
def constructToken (env : List (String × String)) : Option String :=
  match lookupEntries env "CLIENT_TOKEN" with
  | some v => some v
  | none => none

/-- Result of a constructor run that reached the end (in particular the
session manager, created last at Client.js line 128, exists):  the token,
the initial channel store, and whether the normalizing `channels.get`
override was installed. -/
structure ConstructedClient where
  token : Option String
  channels : Collection Channel
  getOverrideInstalled : Bool
deriving DecidableEq, Repr

/-- The observable part of the `Client` constructor (Client.js lines 21-137):
merge-and-validate the options, set the token from the environment, then run
the `options.channels.forEach` initialization loop.  Any `Except.error` is a
`TypeError` thrown before the session manager is created: validation errors
from `_validateOptions`, and the `TypeError` from calling `.forEach` on a
non-array `channels` value (a truthy non-array was already rejected by
validation, a falsy one has no `forEach`). -/
def constructClient (o : Options) (env : List (String × String)) :
    Except String ConstructedClient :=
  match validateOptions o with
  | Except.error e => Except.error e
  | Except.ok _ =>
    match o.channels with
    | JSVal.arr names =>
      Except.ok
        { token := constructToken env
        , channels := initChannels names
        , getOverrideInstalled := !names.isEmpty }
    | _ => Except.error "TypeError: options.channels.forEach is not a function"

/-- Parsed inbound protocol line as the dispatcher receives it: tags
(string-to-string mapping, e.g. the message id), the originating identity
(the wire format's prefix, renamed here because that word is reserved in
Lean), the command, and the ordered parameters whose last entry is the
trailing payload. -/
structure Frame where
  tags : List (String × String)
  origin : String
  command : String
  params : List String
deriving DecidableEq, Repr

/-- JavaScript `s.indexOf(c)`: index of the first occurrence, `-1` when the
character does not occur. -/
def jsIndexOfExcl (s : String) (c : Char) : Int :=
  match s.data.findIdx? (fun x => x = c) with
  | some i => (i : Int)
  | none => -1

/-- JavaScript `s.slice(0, e)`: a nonnegative end takes that many leading
characters, a negative end counts from the end of the string. -/
def jsSliceZeroTo (s : String) (e : Int) : String :=
  if e < 0 then ⟨s.data.take (s.data.length - min s.data.length e.natAbs)⟩
  else ⟨s.data.take e.toNat⟩

/-- The author login the dispatcher extracts from a frame,
`prefix.slice(0, prefix.indexOf('!'))` (Client.js line 233). -/
def jsAuthorLogin (p : String) : String :=
  jsSliceZeroTo p (jsIndexOfExcl p '!')

/-- The message payload built by the `'message'` branch of
`Client.eventEmmiter` and handed to subscribers; the `reply` closure is
omitted (it only forwards to the session manager). -/
structure MessagePayload where
  content : String
  id : Option String
  channel : Channel
  author : Option User
deriving DecidableEq, Repr

/-- The payload's `toString()` method returns its `content` field
(Client.js lines 215-217). -/
def MessagePayload.jsToString (m : MessagePayload) : String :=
  m.content

/-- The `'message'` branch of `Client.eventEmmiter` (Client.js lines
210-236), parametrized by the client's `channels.get` function.  Field
initializers run in source order: `content` reads `params[1]` (with fewer
than two parameters that is `undefined` and its `.toString()` throws), the
`channel` field stores whatever `channels.get(params[0])` returns, and the
`author` initializer reads `.users` of that same lookup — when the room is
unknown the lookup is `undefined` and the property read throws a
`TypeError`. -/
def eventEmmiterMessage (channelsGet : String → Option Channel) (f : Frame) :
    Except String MessagePayload :=
  match f.params with
  | p0 :: p1 :: _ =>
    match channelsGet p0 with
    | some ch =>
      Except.ok
        { content := p1
        , id := lookupEntries f.tags "id"
        , channel := ch
        , author := ch.users.get (jsAuthorLogin f.origin) }
    | none =>
      Except.error "TypeError: Cannot read properties of undefined (reading users)"
  | _ =>
    Except.error "TypeError: Cannot read properties of undefined (reading toString)"

/-- The removal predicate `Client.sweepMessages` passes to each cache:
`now - message.createdTimestamp > lifetimeMs` (Client.js line 270).  It
reads only the creation timestamp. -/
def sweepPred (now lifetimeMs : Int) (m : Message) : Bool :=
  now - m.createdTimestamp > lifetimeMs

/-- One channel's share of a sweep pass: channels without a message cache
are skipped (`if (!channel.messages) continue`), otherwise the cache is
swept with `sweepPred` and the removal count accumulated. -/
def sweepChannel (now lifetimeMs : Int) (ch : Channel) : Nat × Channel :=
  match ch.messages with
  | none => (0, ch)
  | some cache =>
    let r := cache.sweep (sweepPred now lifetimeMs)
    (r.1, { ch with messages := some r.2 })

/-- `Client.sweepMessages(lifetime)` (Client.js lines 254-275): a
nonpositive lifetime returns the sentinel `-1` without touching any
channel; otherwise the lifetime is scaled to milliseconds and every
channel's cache is swept, returning the total number of removed messages
together with the updated channel list. -/
def sweepMessages (chs : List Channel) (now : Int) (lifetime : Int) :
    Int × List Channel :=
  if lifetime ≤ 0 then (-1, chs)
  else
    let lifetimeMs := lifetime * 1000
    let results := chs.map (sweepChannel now lifetimeMs)
    (((results.map (fun r => r.1)).sum : Nat), results.map (fun r => r.2))

/-- Modelled from the spec: the effective timestamp of a message prefers the
edit timestamp when one is present and falls back to the creation
timestamp. -/
def effectiveTimestamp (m : Message) : Int :=
  match m.editedTimestamp with
  | some e => e
  | none => m.createdTimestamp

/-- Number of cached messages of one channel (zero when the channel has no
cache). -/
def msgCount (ch : Channel) : Nat :=
  match ch.messages with
  | none => 0
  | some cache => cache.entries.length

/-- Total number of cached messages across a channel list. -/
def totalMessages (chs : List Channel) : Nat :=
  (chs.map msgCount).sum

theorem data_hash_append (s : String) : ("#" ++ s).data = '#' :: s.data := by
  cases s
  rfl

theorem normalize_of_not_hash (s : String) (h : s.data.head? ≠ some '#') :
    normalizeChannelName s = "#" ++ s := by
  apply String.ext
  rw [data_hash_append]
  show normalizeChars s.data = '#' :: s.data
  rw [normalizeChars, if_neg h]

theorem normalize_hash_append (s : String) :
    normalizeChannelName ("#" ++ s) = "#" ++ s := by
  apply String.ext
  show normalizeChars ("#" ++ s).data = ("#" ++ s).data
  rw [data_hash_append, normalizeChars]
  simp


theorem lookup_set_self {b : Type} (l : List (String × b)) (k : String) (v : b) :
    lookupEntries (setEntries l k v) k = some v := by
  induction l with
  | nil => simp [setEntries, lookupEntries]
  | cons hd tl ih =>
    obtain ⟨k2, v2⟩ := hd
    by_cases h : k2 = k
    · simp [setEntries, h, lookupEntries]
    · simp [setEntries, h, lookupEntries, ih]

theorem lookup_set_ne {b : Type} (l : List (String × b)) (k k2 : String) (v : b)
    (h : k2 ≠ k) :
    lookupEntries (setEntries l k v) k2 = lookupEntries l k2 := by
  induction l with
  | nil =>
    simp only [setEntries, lookupEntries]
    rw [if_neg (fun he => h he.symm)]
  | cons hd tl ih =>
    obtain ⟨k3, v3⟩ := hd
    by_cases h3 : k3 = k
    · subst h3
      simp only [setEntries, if_pos rfl, lookupEntries]
      rw [if_neg (fun he => h he.symm), if_neg (fun he => h he.symm)]
    · simp [setEntries, h3, lookupEntries, ih]

theorem lookup_none_of_no_key {b : Type} (l : List (String × b)) (k : String)
    (h : ∀ kv ∈ l, kv.1 ≠ k) :
    lookupEntries l k = none := by
  induction l with
  | nil => rfl
  | cons hd tl ih =>
    obtain ⟨k2, v2⟩ := hd
    have h2 : k2 ≠ k := h (k2, v2) (List.mem_cons_self _ _)
    simp [lookupEntries, h2, ih (fun kv hm => h kv (List.mem_cons_of_mem _ hm))]

theorem findByName_eq_lookup (l : List (String × Channel)) (K : String)
    (h : ∀ kv ∈ l, (kv.2).name = kv.1) :
    findValue l (fun ch => ch.name == K) = lookupEntries l K := by
  induction l with
  | nil => rfl
  | cons hd tl ih =>
    obtain ⟨k, v⟩ := hd
    have hv : v.name = k := h (k, v) (List.mem_cons_self _ _)
    by_cases hk : k = K
    · simp [findValue, lookupEntries, hv, hk]
    · simp [findValue, lookupEntries, hv, hk,
        ih (fun kv hm => h kv (List.mem_cons_of_mem _ hm))]

theorem setEntries_names {b : Type} (nameOf : b → String) (l : List (String × b))
    (k : String) (v : b)
    (hl : ∀ kv ∈ l, nameOf kv.2 = kv.1) (hv : nameOf v = k) :
    ∀ kv ∈ setEntries l k v, nameOf kv.2 = kv.1 := by
  induction l with
  | nil => simp [setEntries, hv]
  | cons hd tl ih =>
    obtain ⟨k2, v2⟩ := hd
    by_cases h2 : k2 = k
    · intro kv hm
      rw [setEntries] at hm
      simp only [h2, if_pos rfl] at hm
      rcases List.mem_cons.mp hm with he | hm2
      · subst he; exact hv
      · exact hl _ (List.mem_cons_of_mem _ hm2)
    · intro kv hm
      rw [setEntries] at hm
      simp only [h2, if_neg h2] at hm
      rcases List.mem_cons.mp hm with he | hm2
      · subst he; exact hl _ (List.mem_cons_self _ _)
      · exact ih (fun kv2 hk => hl kv2 (List.mem_cons_of_mem _ hk)) _ hm2

theorem initFold_names (ls : List String) (acc : Collection Channel)
    (hacc : ∀ kv ∈ acc.entries, (kv.2).name = kv.1) :
    ∀ kv ∈ (initFold acc ls).entries, (kv.2).name = kv.1 := by
  induction ls generalizing acc with
  | nil => exact hacc
  | cons a rest ih =>
    exact ih _ (setEntries_names Channel.name acc.entries _ _ hacc rfl)

theorem initFold_get_notmem (ls : List String) (acc : Collection Channel) (k : String)
    (h : k ∉ ls.map normalizeChannelName) :
    (initFold acc ls).get k = acc.get k := by
  induction ls generalizing acc with
  | nil => rfl
  | cons a rest ih =>
    have h1 : normalizeChannelName a ≠ k := by
      intro he
      exact h (by simp [he])
    have h2 : k ∉ rest.map normalizeChannelName := fun hm => h (by simp [hm])
    show (initFold (acc.set _ _) rest).get k = acc.get k
    rw [ih _ h2]
    exact lookup_set_ne acc.entries _ k _ (fun he => h1 he.symm)

theorem initFold_get_mem (ls : List String) (acc : Collection Channel) (k : String)
    (h : k ∈ ls.map normalizeChannelName) :
    (initFold acc ls).get k = some (mkChannel k) := by
  induction ls generalizing acc with
  | nil => simp at h
  | cons a rest ih =>
    by_cases hm : k ∈ rest.map normalizeChannelName
    · exact ih _ hm
    · have hk : normalizeChannelName a = k := by
        have hh : k = normalizeChannelName a ∨ ∃ x ∈ rest, normalizeChannelName x = k := by
          simpa using h
        rcases hh with he | ⟨x, hx, hxe⟩
        · exact he.symm
        · exact absurd (hxe ▸ List.mem_map_of_mem normalizeChannelName hx) hm
      show (initFold (acc.set _ _) rest).get k = some (mkChannel k)
      rw [initFold_get_notmem rest _ k hm]
      subst hk
      show lookupEntries (setEntries acc.entries _ _) _ = _
      exact lookup_set_self acc.entries _ _

def cacheEntries (ch : Channel) : List (String × Message) :=
  match ch.messages with
  | none => []
  | some cache => cache.entries

def editAfterCreate (m : Message) : Bool :=
  match m.editedTimestamp with
  | none => true
  | some e => decide (m.createdTimestamp ≤ e)

theorem length_filter_partition {b : Type} (l : List b) (p : b → Bool) :
    (l.filter p).length + (l.filter (fun x => !p x)).length = l.length := by
  induction l with
  | nil => rfl
  | cons hd tl ih =>
    by_cases hp : p hd
    · simp [List.filter_cons, hp]
      omega
    · simp [List.filter_cons, hp]
      omega

theorem sweepChannel_count (now ms : Int) (ch : Channel) :
    (sweepChannel now ms ch).1 + msgCount (sweepChannel now ms ch).2 = msgCount ch := by
  cases hm : ch.messages with
  | none => simp [sweepChannel, hm, msgCount]
  | some cache =>
    simp [sweepChannel, hm, msgCount, Collection.sweep, length_filter_partition]

theorem sweep_results_count (now ms : Int) (chs : List Channel) :
    ((chs.map (sweepChannel now ms)).map (fun r => r.1)).sum
      + totalMessages ((chs.map (sweepChannel now ms)).map (fun r => r.2))
      = totalMessages chs := by
  induction chs with
  | nil => rfl
  | cons hd tl ih =>
    have hc := sweepChannel_count now ms hd
    simp only [List.map_cons, List.sum_cons, totalMessages] at *
    omega

theorem sweepChannel_mem_kept (now ms : Int) (ch : Channel) (kv : String × Message)
    (hkv : kv ∈ cacheEntries (sweepChannel now ms ch).2) :
    kv ∈ cacheEntries ch ∧ sweepPred now ms kv.2 = false := by
  cases hm : ch.messages with
  | none =>
    have hs : sweepChannel now ms ch = (0, ch) := by simp [sweepChannel, hm]
    rw [hs] at hkv
    simp [cacheEntries, hm] at hkv
  | some cache =>
    have hs : (sweepChannel now ms ch).2
        = { ch with
            messages := some ⟨cache.entries.filter (fun e => !sweepPred now ms e.2)⟩ } := by
      simp [sweepChannel, hm, Collection.sweep]
    rw [hs] at hkv
    simp only [cacheEntries] at hkv
    have hmf := List.mem_filter.mp hkv
    refine ⟨?_, ?_⟩
    · rw [cacheEntries, hm]
      exact hmf.1
    · have h2 := hmf.2
      simp at h2
      exact h2

def ex1Frame : Frame :=
  ⟨[("id", "1")], "alice!alice@tmi", "PRIVMSG", ["#nowhere", "hello"]⟩

/-- C1 (code bug): dispatching a chat-message event whose room is not in the
channel store throws a TypeError while building the payload's author field
(Client.js line 233 reads `.users` of an undefined lookup) instead of
failing silently as the claim requires.  The store here holds only
`#other`; the frame addresses `#nowhere`. -/
theorem eventEmmiter_unknown_room_throws :
    eventEmmiterMessage (clientChannelsGet ["#other"] (initChannels ["#other"])) ex1Frame
      = Except.error "TypeError: Cannot read properties of undefined (reading users)" := by
  rfl

def ex2Message : Message := ⟨"m1", "hi", 0, some 4900⟩

def ex2Channel : Channel := ⟨"#room", ⟨[]⟩, some ⟨[("m1", ex2Message)]⟩⟩

/-- C2 (code bug): at time 5000 ms with lifetime 1 s, the message created at
0 ms but edited at 4900 ms has effective age 100 ms ≤ 1000 ms, so the
claimed edit-aware criterion keeps it; `sweepMessages` sweeps by
`createdTimestamp` alone (Client.js line 270) and removes it — count 1 and
an emptied cache — contradicting the claim and the function's own doc
comment. -/
theorem sweepMessages_ignores_edit_timestamp :
    sweepMessages [ex2Channel] 5000 1 = (1, [⟨"#room", ⟨[]⟩, some ⟨[]⟩⟩])
    ∧ 5000 - effectiveTimestamp ex2Message ≤ 1 * 1000 := by
  exact ⟨by decide, by decide⟩

/-- C3: for every lifetime L ≤ 0, `sweepMessages` returns the sentinel -1
and leaves every channel untouched — the function returns before the sweep
loop, so no per-channel removal predicate is ever invoked. -/
theorem sweepMessages_nonpositive_lifetime_noop (chs : List Channel)
    (now L : Int) (h : L ≤ 0) :
    sweepMessages chs now L = (-1, chs) := by
  simp [sweepMessages, h]

def ex3Channels : List Channel :=
  [⟨"#room", ⟨[]⟩, some ⟨[("m1", ⟨"m1", "old", 0, none⟩)]⟩⟩]

/-- Witness for C3: lifetime 0 on a cache holding a very old message keeps
the message and returns -1. -/
theorem sweepMessages_nonpositive_lifetime_noop_witness :
    (0 : Int) ≤ 0 ∧ sweepMessages ex3Channels 1000000 0 = (-1, ex3Channels) :=
  ⟨by decide, sweepMessages_nonpositive_lifetime_noop ex3Channels 1000000 0 (by decide)⟩

/-- C4: with lifetime L > 0 and caches whose edit timestamps never precede
creation, every message still cached after `sweepMessages` has effective age
(edit time when present, else creation time) at most L seconds (L * 1000
ms), and the returned value is exactly the number of messages removed across
all channels in the pass. -/
theorem sweepMessages_invariant_and_count (chs : List Channel) (now L : Int)
    (hL : 0 < L)
    (hwf : ∀ ch ∈ chs, ∀ kv2 ∈ cacheEntries ch, editAfterCreate kv2.2 = true) :
    (∀ ch2 ∈ (sweepMessages chs now L).2, ∀ kv ∈ cacheEntries ch2,
        now - effectiveTimestamp kv.2 ≤ L * 1000)
    ∧ (sweepMessages chs now L).1
        = (totalMessages chs : Int) - totalMessages (sweepMessages chs now L).2 := by
  have hpos : ¬ L ≤ 0 := by omega
  constructor
  · intro ch2 hch2 kv hkv
    rw [sweepMessages] at hch2
    simp only [if_neg hpos] at hch2
    have hx : ∃ ch ∈ chs, (sweepChannel now (L * 1000) ch).2 = ch2 := by
      simpa using hch2
    obtain ⟨ch, hch, he⟩ := hx
    rw [← he] at hkv
    obtain ⟨hkept, hpred⟩ := sweepChannel_mem_kept now (L * 1000) ch kv hkv
    have hage : now - kv.2.createdTimestamp ≤ L * 1000 := by
      rw [sweepPred] at hpred
      simp at hpred
      omega
    have hedit := hwf ch hch kv hkept
    cases hme : kv.2.editedTimestamp with
    | none =>
      simp only [effectiveTimestamp, hme]
      exact hage
    | some e =>
      rw [editAfterCreate, hme] at hedit
      simp at hedit
      simp only [effectiveTimestamp, hme]
      omega
  · rw [sweepMessages]
    simp only [if_neg hpos]
    have hc := sweep_results_count now (L * 1000) chs
    omega

def ex4Channels : List Channel :=
  [⟨"#room", ⟨[]⟩,
    some ⟨[("m1", ⟨"m1", "old", 0, none⟩), ("m2", ⟨"m2", "new", 4500, some 4800⟩)]⟩⟩]

/-- Witness for C4: at time 5000 ms with lifetime 1 s the stale message is
removed (count 1 = 2 - 1) and every surviving message — here the edited one,
of effective age 200 ms — is within the 1000 ms bound. -/
theorem sweepMessages_invariant_and_count_witness :
    ((0 : Int) < 1
      ∧ (∀ ch ∈ ex4Channels, ∀ kv2 ∈ cacheEntries ch, editAfterCreate kv2.2 = true))
    ∧ ((∀ ch2 ∈ (sweepMessages ex4Channels 5000 1).2, ∀ kv ∈ cacheEntries ch2,
          (5000 : Int) - effectiveTimestamp kv.2 ≤ 1 * 1000)
      ∧ (sweepMessages ex4Channels 5000 1).1
          = (totalMessages ex4Channels : Int)
            - totalMessages (sweepMessages ex4Channels 5000 1).2) :=
  ⟨⟨by decide, by decide⟩,
   sweepMessages_invariant_and_count ex4Channels 5000 1 (by decide) (by decide)⟩

/-- C6: a name from the initial channel list is stored under its
'#'-normalized identifier; the client's `channels.get` returns that same
stored room whether the query carries the leading '#' or not; and a query
whose normalized form matches no stored room yields the not-found indicator
`none` instead of an error. -/
theorem initial_channels_normalized_get (ls : List String) (core q : String)
    (hcore : core.data.head? ≠ some '#')
    (hmem : core ∈ ls ∨ ("#" ++ core) ∈ ls)
    (hq : (initChannels ls).get (normalizeChannelName q) = none) :
    (initChannels ls).get ("#" ++ core) = some (mkChannel ("#" ++ core))
    ∧ clientChannelsGet ls (initChannels ls) ("#" ++ core)
        = some (mkChannel ("#" ++ core))
    ∧ clientChannelsGet ls (initChannels ls) core
        = some (mkChannel ("#" ++ core))
    ∧ clientChannelsGet ls (initChannels ls) q = none := by
  have hne : ls ≠ [] := by
    rcases hmem with h | h <;> exact List.ne_nil_of_mem h
  have hemp : ls.isEmpty = false := by
    cases ls with
    | nil => exact absurd rfl hne
    | cons a rest => rfl
  have hmemn : ("#" ++ core) ∈ ls.map normalizeChannelName := by
    rcases hmem with h | h
    · exact (normalize_of_not_hash core hcore) ▸ List.mem_map_of_mem _ h
    · exact (normalize_hash_append core) ▸ List.mem_map_of_mem _ h
  have hget : (initChannels ls).get ("#" ++ core) = some (mkChannel ("#" ++ core)) :=
    initFold_get_mem ls ⟨[]⟩ _ hmemn
  have hnames : ∀ kv ∈ (initChannels ls).entries, (kv.2).name = kv.1 :=
    initFold_names ls ⟨[]⟩ (by intro kv hk; simp at hk)
  have hfind : ∀ K, (initChannels ls).find (fun ch => ch.name == K)
      = (initChannels ls).get K := by
    intro K
    exact findByName_eq_lookup (initChannels ls).entries K hnames
  refine ⟨hget, ?_, ?_, ?_⟩
  · rw [clientChannelsGet, hemp]
    simp only [Bool.false_eq_true, if_false]
    rw [normalize_hash_append, hfind]
    exact hget
  · rw [clientChannelsGet, hemp]
    simp only [Bool.false_eq_true, if_false]
    rw [normalize_of_not_hash core hcore, hfind]
    exact hget
  · rw [clientChannelsGet, hemp]
    simp only [Bool.false_eq_true, if_false]
    rw [hfind]
    exact hq

def ex6List : List String := ["room", "#alpha"]

/-- Witness for C6: the list stores `room` as `#room`, retrievable with and
without the sigil, while `missing` is not found. -/
theorem initial_channels_normalized_get_witness :
    ("room".data.head? ≠ some '#'
      ∧ ("room" ∈ ex6List ∨ ("#" ++ "room") ∈ ex6List)
      ∧ (initChannels ex6List).get (normalizeChannelName "missing") = none)
    ∧ ((initChannels ex6List).get ("#" ++ "room") = some (mkChannel ("#" ++ "room"))
      ∧ clientChannelsGet ex6List (initChannels ex6List) ("#" ++ "room")
          = some (mkChannel ("#" ++ "room"))
      ∧ clientChannelsGet ex6List (initChannels ex6List) "room"
          = some (mkChannel ("#" ++ "room"))
      ∧ clientChannelsGet ex6List (initChannels ex6List) "missing" = none) :=
  ⟨⟨by decide, by decide, by decide⟩,
   initial_channels_normalized_get ex6List "room" "missing"
     (by decide) (by decide) (by decide)⟩

/-- C9: after a construction whose initial channel list is empty the
normalizing `get` override is not installed; lookups use the collection's
default keyed `get`, and a query without the '#' sigil misses a room stored
under its '#'-prefixed key even when that room exists. -/
theorem empty_channel_list_default_get (o : Options) (env : List (String × String))
    (c : ConstructedClient) (store : Collection Channel) (q : String) (room : Channel)
    (hok : constructClient o env = Except.ok c)
    (hch : o.channels = JSVal.arr [])
    (hq : q.data.head? ≠ some '#')
    (hkeys : ∀ kv ∈ store.entries, kv.1.data.head? = some '#')
    (hroom : store.get ("#" ++ q) = some room) :
    c.getOverrideInstalled = false
    ∧ clientChannelsGet [] store q = store.get q
    ∧ store.get q = none := by
  refine ⟨?_, rfl, ?_⟩
  · rw [constructClient] at hok
    cases hv : validateOptions o <;> rw [hv] at hok
    case error e => simp at hok
    case ok u =>
      rw [hch] at hok
      injection hok with h
      rw [← h]
      rfl
  · rw [Collection.get]
    apply lookup_none_of_no_key
    intro kv hm he
    have hk := hkeys kv hm
    rw [he] at hk
    exact hq hk

def ex9Opts : Options :=
  ⟨JSVal.num 200, JSVal.num 3600, JSVal.num 300, JSVal.bool false, JSVal.arr [],
   JSVal.num 3, JSVal.bool true, JSVal.arr [], JSVal.bool false, JSVal.arr [], []⟩

def ex9Store : Collection Channel := ⟨[("#room", mkChannel "#room")]⟩

/-- Witness for C9: a valid construction with an empty channel list, then a
store holding `#room` that a bare `room` query misses under the default
keyed get. -/
theorem empty_channel_list_default_get_witness :
    (constructClient ex9Opts [] = Except.ok ⟨none, ⟨[]⟩, false⟩
      ∧ ex9Opts.channels = JSVal.arr []
      ∧ "room".data.head? ≠ some '#'
      ∧ (∀ kv ∈ ex9Store.entries, kv.1.data.head? = some '#')
      ∧ ex9Store.get ("#" ++ "room") = some (mkChannel "#room"))
    ∧ ((⟨none, ⟨[]⟩, false⟩ : ConstructedClient).getOverrideInstalled = false
      ∧ clientChannelsGet [] ex9Store "room" = ex9Store.get "room"
      ∧ ex9Store.get "room" = none) :=
  ⟨⟨by rfl, by rfl, by decide, by decide, by decide⟩,
   empty_channel_list_default_get ex9Opts [] ⟨none, ⟨[]⟩, false⟩ ex9Store "room"
     (mkChannel "#room") (by rfl) (by rfl) (by decide) (by decide) (by decide)⟩

/-- C8: a constructor run that completes sets the token to the value of the
process-wide `CLIENT_TOKEN` environment entry when the entry is present and
to null (`none`) otherwise; no token can be supplied through the
constructor, so the guard `!this.token` always holds at that point. -/
theorem client_token_from_env (o : Options) (env : List (String × String))
    (c : ConstructedClient) (hok : constructClient o env = Except.ok c) :
    c.token = lookupEntries env "CLIENT_TOKEN" := by
  rw [constructClient] at hok
  cases hv : validateOptions o <;> rw [hv] at hok
  case error e => simp at hok
  case ok u =>
    cases hc : o.channels <;> rw [hc] at hok <;> try simp at hok
    case arr names =>
      rw [← hok]
      show constructToken env = _
      rw [constructToken]
      cases hl : lookupEntries env "CLIENT_TOKEN" <;> simp

def ex8Opts : Options :=
  ⟨JSVal.num 200, JSVal.num 3600, JSVal.num 300, JSVal.bool false, JSVal.arr [],
   JSVal.num 3, JSVal.bool true, JSVal.arr [], JSVal.bool false, JSVal.arr [], []⟩

/-- Witness for C8: with `CLIENT_TOKEN=secret` in the environment the
constructed client's token is `secret`. -/
theorem client_token_from_env_witness :
    constructClient ex8Opts [("CLIENT_TOKEN", "secret")]
        = Except.ok ⟨some "secret", ⟨[]⟩, false⟩
    ∧ (⟨some "secret", ⟨[]⟩, false⟩ : ConstructedClient).token
        = lookupEntries [("CLIENT_TOKEN", "secret")] "CLIENT_TOKEN" :=
  ⟨by rfl,
   client_token_from_env ex8Opts [("CLIENT_TOKEN", "secret")]
     ⟨some "secret", ⟨[]⟩, false⟩ (by rfl)⟩

theorem constructClient_ok_valid (o : Options) (env : List (String × String))
    (c : ConstructedClient) (hok : constructClient o env = Except.ok c) :
    isValidNumber o.messageCacheMaxSize = true
    ∧ isValidNumber o.messageCacheLifetime = true
    ∧ isValidNumber o.messageSweepInterval = true
    ∧ isBoolVal o.fetchAllChatters = true
    ∧ isValidNumber o.retryLimit = true
    ∧ (truthy o.disabledEvents && !isArrayVal o.disabledEvents) = false
    ∧ isArrayVal o.channels = true := by
  rw [constructClient] at hok
  cases hv : validateOptions o <;> rw [hv] at hok
  case error e => simp at hok
  case ok u =>
    have hcharr : isArrayVal o.channels = true := by
      cases hc : o.channels <;> rw [hc] at hok <;> simp [isArrayVal] at hok ⊢
    clear hok
    rw [validateOptions] at hv
    repeat' split at hv
    all_goals try exact Except.noConfusion hv
    simp only [Bool.not_eq_true, Bool.not_eq_true', Bool.not_eq_false',
      Bool.not_eq_false] at *
    refine ⟨?_, ?_, ?_, ?_, ?_, ?_, hcharr⟩ <;> assumption

/-- True exactly when the constructor throws (returns an error) before the
session manager would be created. -/
def constructionThrows (o : Options) (env : List (String × String)) : Bool :=
  match constructClient o env with
  | Except.error _ => true
  | Except.ok _ => false

/-- C5 (amended): a non-numeric `messageCacheLifetime`, `messageCacheMaxSize`,
`messageSweepInterval` or `retryLimit`, a non-boolean `fetchAllChatters`, a
truthy non-array `disabledEvents`, or a non-array `channels` makes
construction throw a TypeError before the session manager is created.  The
original claim also covered falsy non-array `disabledEvents` values, which
the truthiness guard of the validation accepts silently. -/
theorem invalid_options_reject (o : Options) (env : List (String × String))
    (h : isValidNumber o.messageCacheLifetime = false
       ∨ isValidNumber o.messageCacheMaxSize = false
       ∨ isValidNumber o.messageSweepInterval = false
       ∨ isValidNumber o.retryLimit = false
       ∨ isBoolVal o.fetchAllChatters = false
       ∨ (truthy o.disabledEvents = true ∧ isArrayVal o.disabledEvents = false)
       ∨ isArrayVal o.channels = false) :
    constructionThrows o env = true := by
  rw [constructionThrows]
  cases hc : constructClient o env with
  | error e => rfl
  | ok c =>
    obtain ⟨h1, h2, h3, h4, h5, h6, h7⟩ := constructClient_ok_valid o env c hc
    rcases h with h | h | h | h | h | ⟨ha, hb⟩ | h <;> simp_all

def ex5BadOpts : Options :=
  ⟨JSVal.num 200, JSVal.str "soon", JSVal.num 300, JSVal.bool false, JSVal.arr [],
   JSVal.num 3, JSVal.bool true, JSVal.arr [], JSVal.bool false, JSVal.arr [], []⟩

/-- Witness for C5: a string `messageCacheLifetime` makes construction
throw. -/
theorem invalid_options_reject_witness :
    (isValidNumber ex5BadOpts.messageCacheLifetime = false
       ∨ isValidNumber ex5BadOpts.messageCacheMaxSize = false
       ∨ isValidNumber ex5BadOpts.messageSweepInterval = false
       ∨ isValidNumber ex5BadOpts.retryLimit = false
       ∨ isBoolVal ex5BadOpts.fetchAllChatters = false
       ∨ (truthy ex5BadOpts.disabledEvents = true
            ∧ isArrayVal ex5BadOpts.disabledEvents = false)
       ∨ isArrayVal ex5BadOpts.channels = false)
    ∧ constructionThrows ex5BadOpts [] = true :=
  ⟨by decide, invalid_options_reject ex5BadOpts [] (by decide)⟩

def ex5FalsyOpts : Options :=
  ⟨JSVal.num 200, JSVal.num 3600, JSVal.num 300, JSVal.bool false, JSVal.num 0,
   JSVal.num 3, JSVal.bool true, JSVal.arr ["room"], JSVal.bool false, JSVal.arr [], []⟩

/-- Counterexample for C5 as stated: `disabledEvents: 0` is a non-array
configuration value, yet construction completes without throwing — the
validation only rejects truthy non-array values (Client.js line 303). -/
theorem falsy_nonarray_disabledEvents_accepted :
    isArrayVal ex5FalsyOpts.disabledEvents = false
    ∧ constructionThrows ex5FalsyOpts [] = false := by
  exact ⟨by decide, by rfl⟩

/-- C10: when the merged options carry a key that is not among the default
option keys and every recognized option is valid, construction throws a
TypeError naming that (first unrecognized) option. -/
theorem unknown_option_rejected (o : Options) (env : List (String × String))
    (k : String) (rest : List String)
    (h1 : isValidNumber o.messageCacheMaxSize = true)
    (h2 : isValidNumber o.messageCacheLifetime = true)
    (h3 : isValidNumber o.messageSweepInterval = true)
    (h4 : isBoolVal o.fetchAllChatters = true)
    (h5 : isArrayVal o.disabledEvents = true)
    (h6 : isValidNumber o.retryLimit = true)
    (h7 : isBoolVal o.autoLogEnd = true)
    (h8 : isArrayVal o.channels = true)
    (h9 : isBoolVal o.debug = true)
    (h10 : isArrayVal o.connectedChannels = true)
    (hk : o.extraKeys = k :: rest) :
    constructClient o env
      = Except.error ("The option: " ++ k ++ " is not a valid option.") := by
  have hv : validateOptions o
      = Except.error ("The option: " ++ k ++ " is not a valid option.") := by
    rw [validateOptions, hk]
    simp [h1, h2, h3, h4, h5, h6, h7, h8, h9, h10]
  rw [constructClient, hv]

def ex10Opts : Options :=
  ⟨JSVal.num 200, JSVal.num 3600, JSVal.num 300, JSVal.bool false, JSVal.arr [],
   JSVal.num 3, JSVal.bool true, JSVal.arr [], JSVal.bool false, JSVal.arr [],
   ["channles"]⟩

/-- Witness for C10: an options object with the unrecognized key `channles`
and otherwise valid options is rejected naming that key. -/
theorem unknown_option_rejected_witness :
    (isValidNumber ex10Opts.messageCacheMaxSize = true
      ∧ isValidNumber ex10Opts.messageCacheLifetime = true
      ∧ isValidNumber ex10Opts.messageSweepInterval = true
      ∧ isBoolVal ex10Opts.fetchAllChatters = true
      ∧ isArrayVal ex10Opts.disabledEvents = true
      ∧ isValidNumber ex10Opts.retryLimit = true
      ∧ isBoolVal ex10Opts.autoLogEnd = true
      ∧ isArrayVal ex10Opts.channels = true
      ∧ isBoolVal ex10Opts.debug = true
      ∧ isArrayVal ex10Opts.connectedChannels = true
      ∧ ex10Opts.extraKeys = "channles" :: [])
    ∧ constructClient ex10Opts []
        = Except.error ("The option: " ++ "channles" ++ " is not a valid option.") :=
  ⟨⟨by decide, by decide, by decide, by decide, by decide, by decide, by decide,
    by decide, by decide, by decide, by decide⟩,
   unknown_option_rejected ex10Opts [] "channles" [] (by decide) (by decide)
     (by decide) (by decide) (by decide) (by decide) (by decide) (by decide)
     (by decide) (by decide) (by decide)⟩

/-- C7: for a chat frame addressed to a known room, the emitted message
payload has the trailing parameter as its content (and `toString` returns
it), the user resolved from that room under the login preceding the
origin's first `!` as its author, and the frame's `id` tag as its id. -/
theorem eventEmmiter_message_payload_fields
    (chanGet : String → Option Channel) (f : Frame) (room : Channel)
    (chName t a i : String) (rest : List String)
    (hp : f.params = chName :: t :: rest)
    (hroom : chanGet chName = some room)
    (ha : jsAuthorLogin f.origin = a)
    (hi : lookupEntries f.tags "id" = some i) :
    eventEmmiterMessage chanGet f
      = Except.ok ⟨t, some i, room, room.users.get a⟩
    ∧ MessagePayload.jsToString ⟨t, some i, room, room.users.get a⟩ = t := by
  constructor
  · rw [eventEmmiterMessage, hp]
    simp only [hroom, hi, ha]
  · rfl

def ex7Room : Channel := ⟨"#room", ⟨[("alice", ⟨"alice"⟩)]⟩, some ⟨[]⟩⟩

def ex7Store : Collection Channel := ⟨[("#room", ex7Room)]⟩

def ex7Get : String → Option Channel := clientChannelsGet ["#room"] ex7Store

def ex7Frame : Frame :=
  ⟨[("id", "123")], "alice!alice@tmi", "PRIVMSG", ["#room", "hello"]⟩

/-- Witness for C7: a frame from alice in `#room` yields a payload with
content `hello`, author alice resolved from the room, and id `123`. -/
theorem eventEmmiter_message_payload_fields_witness :
    (ex7Frame.params = "#room" :: "hello" :: []
      ∧ ex7Get "#room" = some ex7Room
      ∧ jsAuthorLogin ex7Frame.origin = "alice"
      ∧ lookupEntries ex7Frame.tags "id" = some "123")
    ∧ (eventEmmiterMessage ex7Get ex7Frame
        = Except.ok ⟨"hello", some "123", ex7Room, ex7Room.users.get "alice"⟩
      ∧ MessagePayload.jsToString
          ⟨"hello", some "123", ex7Room, ex7Room.users.get "alice"⟩ = "hello") :=
  ⟨⟨by rfl, by decide, by decide, by decide⟩,
   eventEmmiter_message_payload_fields ex7Get ex7Frame ex7Room "#room" "hello"
     "alice" "123" [] (by rfl) (by decide) (by decide) (by decide)⟩
